import Mathlib

/-!
Shallow embedding of the Sudoku constraint engine of this repository
(`SudokuSolver` in `src/utils/sudokuSolver.ts`, `SudokuGenerator` in
`src/utils/sudokuGenerator.ts`, `getGridConfig` in `src/utils/gridConfig.ts`).

A grid is a square matrix whose cells hold either a number or `null`
(modelled as `Option Nat`, `none` for `null`).  JavaScript in-place
mutation is modelled by explicit state passing: functions that mutate the
grid return the final grid alongside their result.  Out-of-range index
reads, which in JavaScript yield `undefined` (distinct from `null`) when
the row exists and throw a `TypeError` when the row itself is missing, are
modelled with `List.get?` and, where a throw is reachable
(`findFirstEmptyCell`), with `Except Unit`.
-/

namespace Sudokuz

/-- A cell: `none` models JavaScript `null` (empty), `some v` a placed value. -/
abbrev Cell := Option Nat

/-- `SudokuGrid`: a matrix of cells (`(number | null)[][]`). -/
abbrev Grid := List (List Cell)

/-- `GridConfig` from `src/types/sudoku.ts`. -/
structure GridConfig where
  size : Nat
  subGridRows : Nat
  subGridCols : Nat
  maxNumber : Nat
deriving DecidableEq

/-- The row `grid[r]`, with `[]` standing for an absent row. -/
def getRow (g : Grid) (r : Nat) : List Cell := g.getD r []

/-- The cell `grid[r][c]`; out of range reads give `none`. -/
def getCell (g : Grid) (r c : Nat) : Cell := (getRow g r).getD c none

/-- The assignment `grid[r][c] = v` (no-op when out of range, which the
engine never does on well-formed grids). -/
def setCell (g : Grid) (r c : Nat) (v : Cell) : Grid :=
  g.set r ((getRow g r).set c v)

/-- A grid is well formed for size `n` when it is an `n × n` matrix
(the data-model invariant "matrix is always square"). -/
def Wf (g : Grid) (n : Nat) : Prop :=
  g.length = n ∧ ∀ row ∈ g, row.length = n

instance (g : Grid) (n : Nat) : Decidable (Wf g n) := by
  unfold Wf; infer_instance

/-- A config is well formed when the sub-box dimensions are positive,
divide the grid size, tile it (`R * C = N`), and `maxNumber = N`. -/
def WfConfig (cfg : GridConfig) : Prop :=
  0 < cfg.subGridRows ∧ 0 < cfg.subGridCols ∧
    cfg.subGridRows ∣ cfg.size ∧ cfg.subGridCols ∣ cfg.size ∧
    cfg.subGridRows * cfg.subGridCols = cfg.size ∧ cfg.maxNumber = cfg.size

instance (cfg : GridConfig) : Decidable (WfConfig cfg) := by
  unfold WfConfig; infer_instance

/-- All cell positions of an `n × n` grid in the row-major order every
nested `for (row) for (col)` loop of the engine uses. -/
def allCells (n : Nat) : List (Nat × Nat) :=
  (List.range n).flatMap fun row => (List.range n).map fun col => (row, col)

/-- `SudokuSolver.isValidMove` (sudokuSolver.ts): true iff no other cell in
the row scan, the column scan, or the sub-box scan holds `num`. -/
def isValidMove (grid : Grid) (row col num : Nat) (gridConfig : GridConfig) : Bool :=
  let size := gridConfig.size
  let boxStartRow := row / gridConfig.subGridRows * gridConfig.subGridRows
  let boxStartCol := col / gridConfig.subGridCols * gridConfig.subGridCols
  ((List.range size).all fun c => c == col || getCell grid row c != some num) &&
  ((List.range size).all fun r => r == row || getCell grid r col != some num) &&
  ((List.range gridConfig.subGridRows).all fun i =>
    (List.range gridConfig.subGridCols).all fun j =>
      let r := boxStartRow + i
      let c := boxStartCol + j
      (r == row && c == col) || getCell grid r c != some num)

/-- `SudokuSolver.getPossibleNumbers`: the numbers `1..maxNumber` that
`isValidMove` accepts, in ascending order. -/
def getPossibleNumbers (grid : Grid) (row col : Nat) (gridConfig : GridConfig) : List Nat :=
  ((List.range gridConfig.maxNumber).map (· + 1)).filter fun num =>
    isValidMove grid row col num gridConfig

/-- Loop body of `SudokuSolver.findBestEmptyCell`: row-major sweep keeping
the empty cell with the fewest possibilities, returning immediately on a
cell with exactly one possibility. -/
def findBestEmptyCellGo (grid : Grid) (gridConfig : GridConfig) :
    List (Nat × Nat) → Option (Nat × Nat) → Nat → Option (Nat × Nat)
  | [], best, _ => best
  | (row, col) :: rest, best, minPossibilities =>
    if getCell grid row col == none then
      let possibilities := (getPossibleNumbers grid row col gridConfig).length
      if possibilities < minPossibilities then
        if possibilities == 1 then some (row, col)
        else findBestEmptyCellGo grid gridConfig rest (some (row, col)) possibilities
      else findBestEmptyCellGo grid gridConfig rest best minPossibilities
    else findBestEmptyCellGo grid gridConfig rest best minPossibilities

/-- `SudokuSolver.findBestEmptyCell` (MCV heuristic). -/
def findBestEmptyCell (grid : Grid) (gridConfig : GridConfig) : Option (Nat × Nat) :=
  findBestEmptyCellGo grid gridConfig (allCells gridConfig.size) none (gridConfig.maxNumber + 1)

/-- The candidate loop of `SudokuSolver.solveRecursive`: place `num`,
recurse, and on failure clear the cell (backtrack) and try the next
candidate.  `solveRec` is the recursive call at the next depth. -/
def tryNumbers (solveRec : Grid → Bool × Grid) (row col : Nat) :
    List Nat → Grid → Bool × Grid
  | [], g => (false, g)
  | num :: rest, g =>
    match solveRec (setCell g row col (some num)) with
    | (true, g2) => (true, g2)
    | (false, g2) => tryNumbers solveRec row col rest (setCell g2 row col none)

/-- `SudokuSolver.solveRecursive`, with recursion fuel (the JavaScript
recursion terminates because each level fills one empty cell; any fuel
larger than the number of empty cells is never exhausted). -/
def solveRecursive (gridConfig : GridConfig) : Nat → Grid → Bool × Grid
  | 0, g => (false, g)
  | fuel + 1, g =>
    match findBestEmptyCell g gridConfig with
    | none => (true, g)
    | some (row, col) =>
      tryNumbers (solveRecursive gridConfig fuel) row col
        (getPossibleNumbers g row col gridConfig) g

/-- `SudokuSolver.solve`: runs `solveRecursive` on the grid in place
(the cleared validation cache is never read, so it has no effect). -/
def solve (grid : Grid) (gridConfig : GridConfig) : Bool × Grid :=
  solveRecursive gridConfig (gridConfig.size * gridConfig.size + 1) grid

/-- `ValidationResult` from `src/types/sudoku.ts`. -/
structure ValidationResult where
  isValid : Bool
  conflicts : List (Nat × Nat)
deriving DecidableEq

/-- Loop body of `SudokuSolver.validateGrid`: for each filled cell,
temporarily clear it, test `isValidMove` with its own value, record a
conflict on failure, and restore the value. -/
def validateGridGo (gridConfig : GridConfig) :
    List (Nat × Nat) → Grid → List (Nat × Nat) → Grid × List (Nat × Nat)
  | [], g, conflicts => (g, conflicts)
  | (row, col) :: rest, g, conflicts =>
    match getCell g row col with
    | none => validateGridGo gridConfig rest g conflicts
    | some num =>
      let cleared := setCell g row col none
      let bad := !(isValidMove cleared row col num gridConfig)
      let restored := setCell cleared row col (some num)
      validateGridGo gridConfig rest restored
        (if bad then conflicts ++ [(row, col)] else conflicts)

/-- `SudokuSolver.validateGrid` together with the final state of the grid
it mutated and restored (the grid component models the in-place array). -/
def validateGridRun (grid : Grid) (gridConfig : GridConfig) : Grid × ValidationResult :=
  let out := validateGridGo gridConfig (allCells gridConfig.size) grid []
  (out.1, { isValid := out.2.length == 0, conflicts := out.2 })

/-- `SudokuSolver.validateGrid`: the returned `ValidationResult`. -/
def validateGrid (grid : Grid) (gridConfig : GridConfig) : ValidationResult :=
  (validateGridRun grid gridConfig).2

/-- `SudokuSolver.isComplete`: every cell filled and the grid valid. -/
def isComplete (grid : Grid) (gridConfig : GridConfig) : Bool :=
  ((allCells gridConfig.size).all fun rc => getCell grid rc.1 rc.2 != none) &&
    (validateGrid grid gridConfig).isValid

/-- `SudokuSolver.getHint`: collect the empty cells in row-major order,
stable-sort them by ascending candidate count (JavaScript `Array.sort`
with comparator `aPossibilities - bPossibilities`; `Array.sort` is a
stable sort, modelled by `List.insertionSort`), and return the first. -/
def getHint (grid solution : Grid) (gridConfig : GridConfig) : Option (Nat × Nat) :=
  let emptyCells := (allCells gridConfig.size).filter fun rc =>
    getCell grid rc.1 rc.2 == none
  if emptyCells.isEmpty then none
  else
    (emptyCells.insertionSort fun a b =>
      (getPossibleNumbers grid a.1 a.2 gridConfig).length ≤
        (getPossibleNumbers grid b.1 b.2 gridConfig).length).head?

/-- `SudokuGenerator.createEmptyGrid`. -/
def createEmptyGrid (size : Nat) : Grid :=
  List.replicate size (List.replicate size none)

/-- The cell scan of `SudokuSolver.findFirstEmptyCell`.  The source
hardcodes `row < 9` and `col < 9` whatever the grid size.  Reading
`grid[row]` past the end of a shorter grid yields `undefined`, and
`undefined[col]` throws a `TypeError`, modelled as `.error ()`; reading
`grid[row][col]` past the end of an existing row yields `undefined`,
which is not `=== null` and is skipped. -/
def findFirstEmptyCellGo (grid : Grid) :
    List (Nat × Nat) → Except Unit (Option (Nat × Nat))
  | [] => .ok none
  | (row, col) :: rest =>
    match grid.get? row with
    | none => .error ()
    | some r =>
      match r.get? col with
      | some none => .ok (some (row, col))
      | _ => findFirstEmptyCellGo grid rest

/-- `SudokuSolver.findFirstEmptyCell`, with its hardcoded 9 × 9 bounds. -/
def findFirstEmptyCell (grid : Grid) : Except Unit (Option (Nat × Nat)) :=
  findFirstEmptyCellGo grid
    ((List.range 9).flatMap fun row => (List.range 9).map fun col => (row, col))

/-- The candidate loop of `SudokuSolver.fillGridRandomly`: try the shuffled
numbers at the chosen cell, recursing through `fillRec` and clearing the
cell on failure; a thrown error propagates. -/
def fillTry (fillRec : Grid → Except Unit (Bool × Grid))
    (row col : Nat) (gridConfig : GridConfig) :
    List Nat → Grid → Except Unit (Bool × Grid)
  | [], g => .ok (false, g)
  | num :: rest, g =>
    if isValidMove g row col num gridConfig then
      match fillRec (setCell g row col (some num)) with
      | .error e => .error e
      | .ok (true, g2) => .ok (true, g2)
      | .ok (false, g2) => fillTry fillRec row col gridConfig rest (setCell g2 row col none)
    else fillTry fillRec row col gridConfig rest g

/-- `SudokuSolver.fillGridRandomly`, parameterized by the permutation
`shuffle` that `shuffleArray` (Fisher-Yates on `Math.random`) produces on
each call, and by recursion fuel as in `solveRecursive`. -/
def fillGridRandomly (gridConfig : GridConfig) (shuffle : List Nat → List Nat) :
    Nat → Grid → Except Unit (Bool × Grid)
  | 0, g => .ok (false, g)
  | fuel + 1, g =>
    match findFirstEmptyCell g with
    | .error e => .error e
    | .ok none => .ok (true, g)
    | .ok (some (row, col)) =>
      fillTry (fillGridRandomly gridConfig shuffle fuel) row col gridConfig
        (shuffle ((List.range gridConfig.maxNumber).map (· + 1))) g

/-- `SudokuSolver.generateComplete`: fill an empty grid via
`fillGridRandomly` and return the grid, ignoring the boolean. -/
def generateComplete (gridConfig : GridConfig) (shuffle : List Nat → List Nat) :
    Except Unit Grid :=
  match fillGridRandomly gridConfig shuffle
      (gridConfig.size * gridConfig.size + 1) (createEmptyGrid gridConfig.size) with
  | .error e => .error e
  | .ok (_, g) => .ok g

/-- `Difficulty` from `src/types/sudoku.ts`. -/
inductive Difficulty where
  | easy
  | medium
  | hard
deriving DecidableEq

/-- `getGridConfig` (gridConfig.ts): fixed geometry per difficulty. -/
def getGridConfig : Difficulty → GridConfig
  | .easy => ⟨4, 2, 2, 4⟩
  | .medium => ⟨6, 2, 3, 6⟩
  | .hard => ⟨16, 4, 4, 16⟩

/-- `SudokuGenerator.create4x4Puzzle` (sudokuGenerator.ts): the fixed
4 × 4 puzzle/solution pair. -/
def create4x4Puzzle : Grid × Grid :=
  ([[some 1, none, none, some 4],
    [none, some 4, some 1, none],
    [some 2, none, none, some 3],
    [none, some 3, some 2, none]],
   [[some 1, some 2, some 3, some 4],
    [some 3, some 4, some 1, some 2],
    [some 2, some 1, some 4, some 3],
    [some 4, some 3, some 2, some 1]])

/-- `SudokuGenerator.create6x6Puzzle`: the fixed 6 × 6 pair. -/
def create6x6Puzzle : Grid × Grid :=
  ([[some 1, none, none, some 4, none, some 6],
    [none, some 5, none, none, some 2, none],
    [some 2, none, some 1, none, none, some 4],
    [none, some 6, none, some 2, none, none],
    [none, some 1, none, none, some 4, none],
    [some 6, none, some 5, none, none, some 2]],
   [[some 1, some 2, some 3, some 4, some 5, some 6],
    [some 4, some 5, some 6, some 1, some 2, some 3],
    [some 2, some 3, some 1, some 5, some 6, some 4],
    [some 5, some 6, some 4, some 2, some 3, some 1],
    [some 3, some 1, some 2, some 6, some 4, some 5],
    [some 6, some 4, some 5, some 3, some 1, some 2]])

/-- `SudokuGenerator.create16x16Puzzle`: solution generated by the
formula `((row * 4 + floor(row / 4) + col) % 16) + 1`, puzzle obtained by
clearing the cells with `(row + col) % 3 == 0`. -/
def create16x16Puzzle : Grid × Grid :=
  let solution : Grid := (List.range 16).map fun row =>
    (List.range 16).map fun col => some ((row * 4 + row / 4 + col) % 16 + 1)
  let puzzle : Grid := (List.range 16).map fun row =>
    (List.range 16).map fun col =>
      if (row + col) % 3 == 0 then none
      else some ((row * 4 + row / 4 + col) % 16 + 1)
  (puzzle, solution)

/-- `SudokuGenerator.createPredefinedPuzzle`: dispatch on grid size,
defaulting to the 6 × 6 pair. -/
def createPredefinedPuzzle (gridConfig : GridConfig) : Grid × Grid :=
  match gridConfig.size with
  | 4 => create4x4Puzzle
  | 6 => create6x6Puzzle
  | 16 => create16x16Puzzle
  | _ => create6x6Puzzle

/-- `SudokuGenerator.generatePuzzle`: look up the config for the
difficulty and return deep copies of the predefined pair together with
the config (copying is the identity in this functional model). -/
def generatePuzzle (difficulty : Difficulty) : Grid × Grid × GridConfig :=
  let gridConfig := getGridConfig difficulty
  let pair := createPredefinedPuzzle gridConfig
  (pair.1, pair.2, gridConfig)

/-! ### Spec-side predicates and concrete grids used by the claims -/

/-- Transcribed from the spec: two cells lie in the same sub-box when
their sub-box origins `(floor(row/R)*R, floor(col/C)*C)` coincide. -/
def sameBox (cfg : GridConfig) (row col r c : Nat) : Prop :=
  r / cfg.subGridRows * cfg.subGridRows = row / cfg.subGridRows * cfg.subGridRows ∧
    c / cfg.subGridCols * cfg.subGridCols = col / cfg.subGridCols * cfg.subGridCols

instance (cfg : GridConfig) (row col r c : Nat) : Decidable (sameBox cfg row col r c) := by
  unfold sameBox; infer_instance

/-- Transcribed from the spec: cell `(r, c)` shares a row, a column, or a
sub-box with cell `(row, col)`. -/
def SameUnit (cfg : GridConfig) (row col r c : Nat) : Prop :=
  r = row ∨ c = col ∨ sameBox cfg row col r c

instance (cfg : GridConfig) (row col r c : Nat) : Decidable (SameUnit cfg row col r c) := by
  unfold SameUnit; infer_instance

/-- Whether the `validateGrid` loop records cell `rc` as a conflict:
the cell is filled and, with the cell temporarily cleared, its own value
fails `isValidMove`. -/
def conflictAt (g : Grid) (cfg : GridConfig) (rc : Nat × Nat) : Bool :=
  match getCell g rc.1 rc.2 with
  | none => false
  | some num => !(isValidMove (setCell g rc.1 rc.2 none) rc.1 rc.2 num cfg)

/-- A full 4 × 4 grid holding 1 everywhere: no empty cell, yet every cell
conflicts. -/
def gOnes4 : Grid := List.replicate 4 (List.replicate 4 (some 1))

/-- All 1s except an empty cell at (3, 3): the filled cells contain many
row duplicates, yet the empty cell still has legal candidates. -/
def gAlmostOnes : Grid :=
  [[some 1, some 1, some 1, some 1],
   [some 1, some 1, some 1, some 1],
   [some 1, some 1, some 1, some 1],
   [some 1, some 1, some 1, none]]

/-- Two 1s in row 0 of a 4 × 4 grid, all other cells empty: the example
contradictory grid from the spec. -/
def gTwoOnes : Grid :=
  [[some 1, some 1, none, none],
   [none, none, none, none],
   [none, none, none, none],
   [none, none, none, none]]

/-- An otherwise empty 4 × 4 grid with a 1 at (0, 0), as built by the
repository's own `isValidMove` tests. -/
def gSingleOne : Grid := setCell (createEmptyGrid 4) 0 0 (some 1)

/-! ### Basic facts about cell access and update -/

theorem set_getD_self {α : Type} {l : List α} {i : Nat} {d : α} (h : i < l.length) :
    l.set i (l.getD i d) = l := by
  induction l generalizing i with
  | nil => simp at h
  | cons b t ih =>
    cases i with
    | zero => rfl
    | succ i =>
      simp only [List.getD_cons_succ, List.set_cons_succ, List.cons.injEq, true_and]
      exact ih (by simpa using h)

theorem mem_of_mem_set {α : Type} {l : List α} {i : Nat} {a x : α} (h : x ∈ l.set i a) :
    x ∈ l ∨ (x = a ∧ i < l.length) := by
  induction l generalizing i with
  | nil => simp at h
  | cons b t ih =>
    cases i with
    | zero =>
      rw [List.set_cons_zero] at h
      rcases List.mem_cons.mp h with h | h
      · right; exact ⟨h, by simp⟩
      · left; exact List.mem_cons_of_mem _ h
    | succ i =>
      rw [List.set_cons_succ] at h
      rcases List.mem_cons.mp h with h | h
      · left; rw [h]; exact List.mem_cons_self _ _
      · rcases ih h with h | h
        · left; exact List.mem_cons_of_mem _ h
        · right; exact ⟨h.1, by simpa using Nat.succ_lt_succ h.2⟩

theorem getRow_eq_of_lt {g : Grid} {r : Nat} (h : r < g.length) : getRow g r = g[r] := by
  rw [getRow, List.getD_eq_getElem?_getD, List.getElem?_eq_getElem h, Option.getD_some]

theorem length_getRow {g : Grid} {n r : Nat} (hw : Wf g n) (h : r < n) :
    (getRow g r).length = n := by
  have hlen : r < g.length := by rw [hw.1]; exact h
  rw [getRow_eq_of_lt hlen]
  exact hw.2 _ (List.getElem_mem hlen)

theorem getRow_setCell_self {g : Grid} {r c : Nat} (v : Cell) (h : r < g.length) :
    getRow (setCell g r c v) r = (getRow g r).set c v := by
  rw [setCell, getRow, List.getD_eq_getElem?_getD, List.getElem?_set_self h, Option.getD_some]

theorem getCell_setCell_self {g : Grid} {n r c : Nat} (hw : Wf g n) (hr : r < n) (hc : c < n)
    (v : Cell) : getCell (setCell g r c v) r c = v := by
  have hrg : r < g.length := by rw [hw.1]; exact hr
  have hcl : c < (getRow g r).length := by rw [length_getRow hw hr]; exact hc
  rw [getCell, getRow_setCell_self v hrg, List.getD_eq_getElem?_getD,
    List.getElem?_set_self hcl, Option.getD_some]

theorem getCell_setCell_ne {g : Grid} {r c r' c' : Nat} (v : Cell)
    (hne : (r', c') ≠ (r, c)) :
    getCell (setCell g r c v) r' c' = getCell g r' c' := by
  by_cases hrg : r < g.length
  · by_cases hr : r' = r
    · subst hr
      have hc : c' ≠ c := fun h => hne (by rw [h])
      rw [getCell, getRow_setCell_self v hrg, List.getD_eq_getElem?_getD,
        List.getElem?_set_ne (fun h => hc h.symm), getCell, List.getD_eq_getElem?_getD]
    · have hrow : getRow (setCell g r c v) r' = getRow g r' := by
        rw [setCell, getRow, List.getD_eq_getElem?_getD,
          List.getElem?_set_ne (fun h => hr h.symm), getRow, List.getD_eq_getElem?_getD]
      rw [getCell, hrow, getCell]
  · rw [setCell, List.set_eq_of_length_le (Nat.le_of_not_lt hrg)]

theorem setCell_setCell_restore {g : Grid} {n r c : Nat} (hw : Wf g n) (hr : r < n)
    (hc : c < n) {v0 : Cell} (h0 : getCell g r c = v0) (v : Cell) :
    setCell (setCell g r c v) r c v0 = g := by
  have hrg : r < g.length := by rw [hw.1]; exact hr
  have hcl : c < (getRow g r).length := by rw [length_getRow hw hr]; exact hc
  rw [setCell, getRow_setCell_self v hrg, setCell, List.set_set, List.set_set, ← h0]
  rw [getCell]
  rw [set_getD_self hcl]
  have hgr : getRow g r = g.getD r [] := rfl
  rw [hgr, set_getD_self hrg]

theorem Wf_setCell {g : Grid} {n r c : Nat} (hw : Wf g n) (v : Cell) :
    Wf (setCell g r c v) n := by
  constructor
  · rw [setCell, List.length_set]; exact hw.1
  · intro row hrow
    rcases mem_of_mem_set hrow with h | h
    · exact hw.2 _ h
    · rw [h.1, List.length_set]
      exact length_getRow hw (by rw [← hw.1]; exact h.2)

theorem mem_allCells {n : Nat} {p : Nat × Nat} : p ∈ allCells n ↔ p.1 < n ∧ p.2 < n := by
  obtain ⟨r, c⟩ := p
  simp only [allCells, List.mem_flatMap, List.mem_map, List.mem_range]
  constructor
  · rintro ⟨a, ha, b, hb, hab⟩
    cases hab
    exact ⟨ha, hb⟩
  · rintro ⟨hr, hc⟩
    exact ⟨r, hr, c, hc, rfl⟩

/-! ### The backtracking solver -/

theorem findBestEmptyCellGo_eq_none {g : Grid} {cfg : GridConfig} :
    ∀ cells minP, (∀ rc ∈ cells, getCell g rc.1 rc.2 ≠ none) →
      findBestEmptyCellGo g cfg cells none minP = none := by
  intro cells
  induction cells with
  | nil => intro minP _; rfl
  | cons rc rest ih =>
    intro minP h
    obtain ⟨row, col⟩ := rc
    rw [findBestEmptyCellGo]
    have hcell : (getCell g row col == none) = false := by
      simpa using h (row, col) (List.mem_cons_self _ _)
    rw [hcell]
    simp only [Bool.false_eq_true, if_false]
    exact ih minP fun x hx => h x (List.mem_cons_of_mem _ hx)

theorem findBestEmptyCellGo_eq_some {g : Grid} {cfg : GridConfig} :
    ∀ cells best minP p, findBestEmptyCellGo g cfg cells best minP = some p →
      best = some p ∨ (p ∈ cells ∧ getCell g p.1 p.2 = none) := by
  intro cells
  induction cells with
  | nil => intro best minP p h; left; exact h
  | cons rc rest ih =>
    intro best minP p h
    obtain ⟨row, col⟩ := rc
    rw [findBestEmptyCellGo] at h
    by_cases hcell : (getCell g row col == none) = true
    · rw [if_pos hcell] at h
      have hempty : getCell g row col = none := by simpa using hcell
      by_cases hlt : (getPossibleNumbers g row col cfg).length < minP
      · rw [if_pos hlt] at h
        by_cases hone : ((getPossibleNumbers g row col cfg).length == 1) = true
        · rw [if_pos hone] at h
          right
          cases h
          exact ⟨List.mem_cons_self _ _, hempty⟩
        · rw [if_neg hone] at h
          rcases ih _ _ _ h with h1 | h1
          · right
            cases h1
            exact ⟨List.mem_cons_self _ _, hempty⟩
          · right; exact ⟨List.mem_cons_of_mem _ h1.1, h1.2⟩
      · rw [if_neg hlt] at h
        rcases ih _ _ _ h with h1 | h1
        · left; exact h1
        · right; exact ⟨List.mem_cons_of_mem _ h1.1, h1.2⟩
    · rw [if_neg hcell] at h
      rcases ih _ _ _ h with h1 | h1
      · left; exact h1
      · right; exact ⟨List.mem_cons_of_mem _ h1.1, h1.2⟩

theorem findBestEmptyCell_spec {g : Grid} {cfg : GridConfig} {row col : Nat}
    (h : findBestEmptyCell g cfg = some (row, col)) :
    row < cfg.size ∧ col < cfg.size ∧ getCell g row col = none := by
  rcases findBestEmptyCellGo_eq_some _ _ _ _ h with h1 | h1
  · cases h1
  · have := mem_allCells.mp h1.1
    exact ⟨this.1, this.2, h1.2⟩

theorem findBestEmptyCell_eq_none {g : Grid} {cfg : GridConfig}
    (h : ∀ r < cfg.size, ∀ c < cfg.size, getCell g r c ≠ none) :
    findBestEmptyCell g cfg = none := by
  apply findBestEmptyCellGo_eq_none
  intro rc hrc
  have := mem_allCells.mp hrc
  exact h rc.1 this.1 rc.2 this.2

theorem tryNumbers_false {cfg : GridConfig} {solveRec : Grid → Bool × Grid}
    (hrec : ∀ g1 g2, Wf g1 cfg.size → solveRec g1 = (false, g2) → g2 = g1)
    {row col : Nat} (hr : row < cfg.size) (hc : col < cfg.size) :
    ∀ ns g g2, Wf g cfg.size → getCell g row col = none →
      tryNumbers solveRec row col ns g = (false, g2) → g2 = g := by
  intro ns
  induction ns with
  | nil =>
    intro g g2 _ _ h
    cases h
    rfl
  | cons num rest ih =>
    intro g g2 hw hcell h
    rw [tryNumbers] at h
    cases hres : solveRec (setCell g row col (some num)) with
    | mk b gr =>
      rw [hres] at h
      cases b
      · have hgr : gr = setCell g row col (some num) :=
          hrec _ _ (Wf_setCell hw _) hres
        simp only at h
        rw [hgr, setCell_setCell_restore hw hr hc hcell] at h
        exact ih g g2 hw hcell h
      · simp at h

theorem solveRecursive_false {cfg : GridConfig} :
    ∀ fuel g g2, Wf g cfg.size → solveRecursive cfg fuel g = (false, g2) → g2 = g := by
  intro fuel
  induction fuel with
  | zero =>
    intro g g2 _ h
    cases h
    rfl
  | succ fuel ih =>
    intro g g2 hw h
    rw [solveRecursive] at h
    cases hb : findBestEmptyCell g cfg with
    | none => rw [hb] at h; simp at h
    | some rc =>
      obtain ⟨row, col⟩ := rc
      rw [hb] at h
      obtain ⟨hr, hc, hcell⟩ := findBestEmptyCell_spec hb
      exact tryNumbers_false (fun g1 g2 hw1 h1 => ih g1 g2 hw1 h1) hr hc _ g g2 hw hcell h

theorem tryNumbers_preserve {cfg : GridConfig} {solveRec : Grid → Bool × Grid}
    (hrecF : ∀ g1 g2, Wf g1 cfg.size → solveRec g1 = (false, g2) → g2 = g1)
    (hrecP : ∀ g1 b g2, Wf g1 cfg.size → solveRec g1 = (b, g2) →
      ∀ a b' v, getCell g1 a b' = some v → getCell g2 a b' = some v)
    {row col : Nat} (hr : row < cfg.size) (hc : col < cfg.size) :
    ∀ ns g b g2, Wf g cfg.size → getCell g row col = none →
      tryNumbers solveRec row col ns g = (b, g2) →
      ∀ a b' v, getCell g a b' = some v → getCell g2 a b' = some v := by
  intro ns
  induction ns with
  | nil =>
    intro g b g2 _ _ h a b' v hv
    cases h
    exact hv
  | cons num rest ih =>
    intro g b g2 hw hcell h a b' v hv
    rw [tryNumbers] at h
    cases hres : solveRec (setCell g row col (some num)) with
    | mk bres gr =>
      rw [hres] at h
      have hne : (a, b') ≠ (row, col) := by
        intro he
        rw [show a = row from congrArg Prod.fst he,
          show b' = col from congrArg Prod.snd he, hcell] at hv
        cases hv
      have hset : getCell (setCell g row col (some num)) a b' = some v := by
        rw [getCell_setCell_ne _ hne]; exact hv
      cases bres
      · have hgr : gr = setCell g row col (some num) :=
          hrecF _ _ (Wf_setCell hw _) hres
        simp only at h
        rw [hgr, setCell_setCell_restore hw hr hc hcell] at h
        exact ih g b g2 hw hcell h a b' v hv
      · simp only at h
        cases h
        exact hrecP _ _ _ (Wf_setCell hw _) hres a b' v hset

theorem solveRecursive_preserve {cfg : GridConfig} :
    ∀ fuel g b g2, Wf g cfg.size → solveRecursive cfg fuel g = (b, g2) →
      ∀ a b' v, getCell g a b' = some v → getCell g2 a b' = some v := by
  intro fuel
  induction fuel with
  | zero =>
    intro g b g2 _ h a b' v hv
    cases h
    exact hv
  | succ fuel ih =>
    intro g b g2 hw h a b' v hv
    rw [solveRecursive] at h
    cases hb : findBestEmptyCell g cfg with
    | none =>
      rw [hb] at h
      cases h
      exact hv
    | some rc =>
      obtain ⟨row, col⟩ := rc
      rw [hb] at h
      obtain ⟨hr, hc, hcell⟩ := findBestEmptyCell_spec hb
      exact tryNumbers_preserve (fun g1 g2 hw1 h1 => solveRecursive_false fuel g1 g2 hw1 h1)
        (fun g1 b1 g2 hw1 h1 => ih g1 b1 g2 hw1 h1) hr hc _ g b g2 hw hcell h a b' v hv

/-! ### Characterization of isValidMove -/

theorem boxStart_le {x R : Nat} : x / R * R ≤ x :=
  Nat.div_mul_le_self x R

theorem lt_boxStart_add {x R : Nat} (hR : 0 < R) : x < x / R * R + R := by
  have h1 : x / R * R + x % R = x := by
    rw [Nat.mul_comm (x / R) R]
    exact Nat.div_add_mod x R
  have h2 := Nat.mod_lt x hR
  omega

theorem boxStart_add_lt {R n x i : Nat} (hR : 0 < R) (hdvd : R ∣ n) (hx : x < n)
    (hi : i < R) : x / R * R + i < n := by
  obtain ⟨k, hk⟩ := hdvd
  have hk2 : n = k * R := by rw [hk, Nat.mul_comm]
  have hdiv : x / R < k := by
    rw [Nat.div_lt_iff_lt_mul hR]
    omega
  have hle : (x / R + 1) * R ≤ k * R := Nat.mul_le_mul_right R hdiv
  have hexp : (x / R + 1) * R = x / R * R + R := Nat.succ_mul (x / R) R
  omega

theorem boxStart_of_mem {x R i : Nat} (hR : 0 < R) (hi : i < R) :
    (x / R * R + i) / R * R = x / R * R := by
  have h1 : (x / R * R + i) / R = x / R := by
    rw [Nat.mul_comm, Nat.mul_add_div hR, Nat.div_eq_of_lt hi]
    omega
  rw [h1]

theorem isValidMove_eq_true_iff {g : Grid} {cfg : GridConfig} {row col num : Nat}
    (hcfg : WfConfig cfg) (hrow : row < cfg.size) (hcol : col < cfg.size) :
    isValidMove g row col num cfg = true ↔
      ∀ r c, r < cfg.size → c < cfg.size → (r, c) ≠ (row, col) →
        SameUnit cfg row col r c → getCell g r c ≠ some num := by
  obtain ⟨hR, hC, hRdvd, hCdvd, _, _⟩ := hcfg
  rw [isValidMove]
  simp only [Bool.and_eq_true, List.all_eq_true, List.mem_range, Bool.or_eq_true,
    beq_iff_eq, bne_iff_ne, ne_eq, Bool.and_eq_true]
  constructor
  · rintro ⟨⟨hA, hB⟩, hbox⟩ r c hrlt hclt hne hunit
    rcases hunit with hu | hu | hu
    · subst hu
      have hcne : c ≠ col := fun h => hne (by rw [h])
      rcases hA c hclt with h | h
      · exact absurd h hcne
      · exact h
    · subst hu
      have hrne : r ≠ row := fun h => hne (by rw [h])
      rcases hB r hrlt with h | h
      · exact absurd h hrne
      · exact h
    · obtain ⟨hbr, hbc⟩ := hu
      have hr1 : row / cfg.subGridRows * cfg.subGridRows ≤ r := by
        rw [← hbr]; exact boxStart_le
      have hr2 : r < row / cfg.subGridRows * cfg.subGridRows + cfg.subGridRows := by
        rw [← hbr]; exact lt_boxStart_add hR
      have hc1 : col / cfg.subGridCols * cfg.subGridCols ≤ c := by
        rw [← hbc]; exact boxStart_le
      have hc2 : c < col / cfg.subGridCols * cfg.subGridCols + cfg.subGridCols := by
        rw [← hbc]; exact lt_boxStart_add hC
      have hi : r - row / cfg.subGridRows * cfg.subGridRows < cfg.subGridRows := by omega
      have hj : c - col / cfg.subGridCols * cfg.subGridCols < cfg.subGridCols := by omega
      rcases hbox _ hi _ hj with h | h
      · exfalso
        apply hne
        have : r = row ∧ c = col := by omega
        rw [this.1, this.2]
      · have hre : row / cfg.subGridRows * cfg.subGridRows +
            (r - row / cfg.subGridRows * cfg.subGridRows) = r := by omega
        have hce : col / cfg.subGridCols * cfg.subGridCols +
            (c - col / cfg.subGridCols * cfg.subGridCols) = c := by omega
        rw [hre, hce] at h
        exact h
  · intro h
    refine ⟨⟨?_, ?_⟩, ?_⟩
    · intro c hclt
      by_cases hc : c = col
      · left; exact hc
      · right
        exact h row c hrow hclt (fun he => hc (congrArg Prod.snd he)) (Or.inl rfl)
    · intro r hrlt
      by_cases hr : r = row
      · left; exact hr
      · right
        exact h r col hrlt hcol (fun he => hr (congrArg Prod.fst he)) (Or.inr (Or.inl rfl))
    · intro i hi j hj
      by_cases he : row / cfg.subGridRows * cfg.subGridRows + i = row ∧
          col / cfg.subGridCols * cfg.subGridCols + j = col
      · left; exact he
      · right
        apply h
        · exact boxStart_add_lt hR hRdvd hrow hi
        · exact boxStart_add_lt hC hCdvd hcol hj
        · intro heq
          exact he ⟨congrArg Prod.fst heq, congrArg Prod.snd heq⟩
        · exact Or.inr (Or.inr ⟨boxStart_of_mem hR hi, boxStart_of_mem hC hj⟩)

theorem isValidMove_eq_false_iff {g : Grid} {cfg : GridConfig} {row col num : Nat}
    (hcfg : WfConfig cfg) (hrow : row < cfg.size) (hcol : col < cfg.size) :
    isValidMove g row col num cfg = false ↔
      ∃ r c, r < cfg.size ∧ c < cfg.size ∧ (r, c) ≠ (row, col) ∧
        SameUnit cfg row col r c ∧ getCell g r c = some num := by
  rw [← Bool.not_eq_true, isValidMove_eq_true_iff hcfg hrow hcol]
  push_neg
  constructor
  · rintro ⟨r, c, hr, hc, hne, hunit, hcell⟩
    exact ⟨r, c, hr, hc, hne, hunit, hcell⟩
  · rintro ⟨r, c, hr, hc, hne, hunit, hcell⟩
    exact ⟨r, c, hr, hc, hne, hunit, hcell⟩

/-! ### validateGrid -/

theorem validateGridGo_spec {g : Grid} {n : Nat} {cfg : GridConfig} (hw : Wf g n) :
    ∀ cells acc, (∀ rc ∈ cells, rc.1 < n ∧ rc.2 < n) →
      validateGridGo cfg cells g acc = (g, acc ++ cells.filter (conflictAt g cfg)) := by
  intro cells
  induction cells with
  | nil => intro acc _; simp [validateGridGo]
  | cons rc rest ih =>
    intro acc hmem
    obtain ⟨hr, hc⟩ := hmem rc (List.mem_cons_self _ _)
    obtain ⟨row, col⟩ := rc
    rw [validateGridGo]
    cases hcell : getCell g row col with
    | none =>
      rw [ih acc fun x hx => hmem x (List.mem_cons_of_mem _ hx)]
      rw [List.filter_cons]
      have : conflictAt g cfg (row, col) = false := by
        rw [conflictAt]
        simp only
        rw [hcell]
      rw [this]
      simp
    | some num =>
      simp only
      rw [setCell_setCell_restore hw hr hc hcell]
      rw [ih _ fun x hx => hmem x (List.mem_cons_of_mem _ hx)]
      rw [List.filter_cons]
      have hconf : conflictAt g cfg (row, col) =
          !(isValidMove (setCell g row col none) row col num cfg) := by
        rw [conflictAt]
        simp only
        rw [hcell]
      rw [hconf]
      cases hv : isValidMove (setCell g row col none) row col num cfg with
      | false => simp
      | true => simp

theorem validateGridRun_fst {g : Grid} {cfg : GridConfig} (hw : Wf g cfg.size) :
    (validateGridRun g cfg).1 = g := by
  rw [validateGridRun]
  rw [validateGridGo_spec hw _ [] fun rc hrc => mem_allCells.mp hrc]

theorem validateGrid_conflicts {g : Grid} {cfg : GridConfig} (hw : Wf g cfg.size) :
    (validateGrid g cfg).conflicts = (allCells cfg.size).filter (conflictAt g cfg) := by
  rw [validateGrid, validateGridRun]
  rw [validateGridGo_spec hw _ [] fun rc hrc => mem_allCells.mp hrc]
  simp

theorem conflictAt_none {g : Grid} {cfg : GridConfig} {r c : Nat}
    (hcell : getCell g r c = none) : conflictAt g cfg (r, c) = false := by
  rw [conflictAt]
  simp only
  rw [hcell]

theorem conflictAt_some {g : Grid} {cfg : GridConfig} {r c num : Nat}
    (hcell : getCell g r c = some num) :
    conflictAt g cfg (r, c) = !(isValidMove (setCell g r c none) r c num cfg) := by
  rw [conflictAt]
  simp only
  rw [hcell]

theorem validateGrid_isValid_iff {g : Grid} {cfg : GridConfig} :
    (validateGrid g cfg).isValid = true ↔ (validateGrid g cfg).conflicts = [] := by
  have h : (validateGrid g cfg).isValid =
      ((validateGrid g cfg).conflicts.length == 0) := rfl
  rw [h, Nat.beq_eq_true_eq, List.length_eq_zero]

/-! ### getHint -/

theorem getHint_ignores_solution (g sol sol2 : Grid) (cfg : GridConfig) :
    getHint g sol cfg = getHint g sol2 cfg := rfl

theorem getHint_eq_none {g sol : Grid} {cfg : GridConfig}
    (h : ∀ r < cfg.size, ∀ c < cfg.size, getCell g r c ≠ none) :
    getHint g sol cfg = none := by
  rw [getHint]
  have hnil : ((allCells cfg.size).filter fun rc => getCell g rc.1 rc.2 == none) = [] := by
    rw [List.filter_eq_nil]
    intro rc hrc
    have hm := mem_allCells.mp hrc
    simpa using h rc.1 hm.1 rc.2 hm.2
  rw [hnil]
  rfl

theorem insertionSort_key_head {α : Type} (key : α → Nat) (l : List α) {x : α} (hx : x ∈ l) :
    ∃ h, (List.insertionSort (fun a b => key a ≤ key b) l).head? = some h ∧
      h ∈ l ∧ ∀ y ∈ l, key h ≤ key y := by
  haveI htot : IsTotal α (fun a b => key a ≤ key b) := ⟨fun a b => Nat.le_total _ _⟩
  haveI htrans : IsTrans α (fun a b => key a ≤ key b) :=
    ⟨fun a b c hab hbc => Nat.le_trans hab hbc⟩
  have hperm := List.perm_insertionSort (fun a b => key a ≤ key b) l
  have hsorted := List.sorted_insertionSort (fun a b => key a ≤ key b) l
  cases hsort : List.insertionSort (fun a b => key a ≤ key b) l with
  | nil =>
    exfalso
    have hlen := hperm.length_eq
    rw [hsort] at hlen
    have h0 : l.length = 0 := hlen.symm
    rw [List.length_eq_zero] at h0
    rw [h0] at hx
    cases hx
  | cons hd tl =>
    refine ⟨hd, rfl, ?_, ?_⟩
    · rw [← hperm.mem_iff, hsort]
      exact List.mem_cons_self _ _
    · intro y hy
      have hymem : y ∈ List.insertionSort (fun a b => key a ≤ key b) l := by
        rw [hperm.mem_iff]
        exact hy
      rw [hsort] at hymem
      rcases List.mem_cons.mp hymem with h | h
      · rw [h]
      · rw [hsort] at hsorted
        exact List.rel_of_sorted_cons hsorted _ h

theorem getHint_min {g sol : Grid} {cfg : GridConfig} {r c : Nat}
    (hr : r < cfg.size) (hc : c < cfg.size) (hcell : getCell g r c = none) :
    ∃ hr2 hc2, getHint g sol cfg = some (hr2, hc2) ∧ hr2 < cfg.size ∧ hc2 < cfg.size ∧
      getCell g hr2 hc2 = none ∧
      ∀ a < cfg.size, ∀ b < cfg.size, getCell g a b = none →
        (getPossibleNumbers g hr2 hc2 cfg).length ≤ (getPossibleNumbers g a b cfg).length := by
  have hmem : (r, c) ∈ (allCells cfg.size).filter
      (fun rc => getCell g rc.1 rc.2 == none) := by
    rw [List.mem_filter, mem_allCells]
    exact ⟨⟨hr, hc⟩, by simpa using hcell⟩
  obtain ⟨hd, hhead, hmemhd, hmin⟩ :=
    insertionSort_key_head (fun rc => (getPossibleNumbers g rc.1 rc.2 cfg).length) _ hmem
  obtain ⟨hr2, hc2⟩ := hd
  have hmm := List.mem_filter.mp hmemhd
  have hmA := mem_allCells.mp hmm.1
  have hcellhd : getCell g hr2 hc2 = none := by simpa using hmm.2
  have hne : ((allCells cfg.size).filter
      fun rc => getCell g rc.1 rc.2 == none).isEmpty = false := by
    rw [Bool.eq_false_iff]
    intro habs
    rw [List.isEmpty_iff] at habs
    rw [habs] at hmem
    cases hmem
  refine ⟨hr2, hc2, ?_, hmA.1, hmA.2, hcellhd, ?_⟩
  · simp only [getHint, hne, Bool.false_eq_true, if_false]
    exact hhead
  · intro a ha b hb hab
    exact hmin (a, b) (List.mem_filter.mpr ⟨mem_allCells.mpr ⟨ha, hb⟩, by simpa using hab⟩)

/-! ### Claim theorems -/

/-- **C1** (refuted; the code contradicts its stated intent).  The claim
says `generateComplete` succeeds on every well-formed configuration and
returns a fully filled conflict-free grid.  In the source,
`findFirstEmptyCell` hardcodes its scan to rows and columns `0..8`
although the app only uses 4 × 4, 6 × 6 and 16 × 16 grids: on the 4 × 4
config the moment the grid becomes full the scan reads `grid[4]`
(undefined) and `grid[4][0]` throws a TypeError.  Shown with the identity
candidate order, a possible outcome of the shuffle. -/
theorem generateComplete_easy_throws :
    generateComplete (getGridConfig .easy) (fun nums => nums) = .error () := by rfl

/-- **C2 counterexample.**  A full 4 × 4 grid of all 1s has zero empty
cells and `validateGrid` reports conflicts, yet `solve` returns true —
refuting the claimed equivalence. -/
theorem solve_full_invalid_counterexample :
    (∀ r < 4, ∀ c < 4, getCell gOnes4 r c ≠ none) ∧
    (solve gOnes4 (getGridConfig .easy)).1 = true ∧
    (validateGrid gOnes4 (getGridConfig .easy)).isValid = false := by decide

/-- **C2 (amended).**  On a grid with zero empty cells `solve` returns
true unconditionally — whether or not `validateGrid` reports conflicts —
and leaves every cell unchanged. -/
theorem solve_full_grid (g : Grid) (cfg : GridConfig)
    (h : ∀ r < cfg.size, ∀ c < cfg.size, getCell g r c ≠ none) :
    solve g cfg = (true, g) := by
  rw [solve, solveRecursive, findBestEmptyCell_eq_none h]

theorem solve_full_grid_witness : solve gOnes4 (getGridConfig .easy) = (true, gOnes4) :=
  solve_full_grid gOnes4 (getGridConfig .easy) (by decide)

/-- **C3 counterexample.**  A grid whose filled cells contain row
duplicates (two 1s in row 0, and more) but whose single empty cell still
has a legal candidate: `solve` returns true, refuting the claim that any
pre-existing duplicate among filled cells forces a false result. -/
theorem solve_duplicate_returns_true_counterexample :
    getCell gAlmostOnes 0 0 = some 1 ∧ getCell gAlmostOnes 0 1 = some 1 ∧
    getCell gAlmostOnes 3 3 = none ∧
    (solve gAlmostOnes (getGridConfig .easy)).1 = true := by decide

/-- **C3 (amended).**  For the spec's example — a 4 × 4 grid with two 1s
in row 0 and all other cells empty, which admits no assignment of its
empty cells — `solve` returns false and returns the grid unchanged, so
every originally-empty cell is empty afterwards.  (A duplicate confined
to the filled cells does not by itself force false; only the empty cells
admitting no valid assignment does.) -/
theorem solve_contradictory_example :
    getCell gTwoOnes 0 0 = some 1 ∧ getCell gTwoOnes 0 1 = some 1 ∧
    solve gTwoOnes (getGridConfig .easy) = (false, gTwoOnes) := by decide

/-- **C4.**  `isValidMove` returns true iff no cell other than
`(row, col)` in the same row, column, or sub-box (origin
`(floor(row/R)*R, floor(col/C)*C)`) holds `num`.  The embedding is pure,
so the no-mutation part of the claim is inherent. -/
theorem isValidMove_spec (g : Grid) (cfg : GridConfig) (row col num : Nat)
    (hcfg : WfConfig cfg) (hrow : row < cfg.size) (hcol : col < cfg.size)
    (hnum1 : 1 ≤ num) (hnum2 : num ≤ cfg.maxNumber) :
    isValidMove g row col num cfg = true ↔
      ∀ r c, r < cfg.size → c < cfg.size → (r, c) ≠ (row, col) →
        SameUnit cfg row col r c → getCell g r c ≠ some num :=
  isValidMove_eq_true_iff hcfg hrow hcol

theorem isValidMove_spec_witness :
    isValidMove gSingleOne 0 1 2 (getGridConfig .easy) = true ↔
      ∀ r c, r < (getGridConfig .easy).size → c < (getGridConfig .easy).size →
        (r, c) ≠ (0, 1) → SameUnit (getGridConfig .easy) 0 1 r c →
          getCell gSingleOne r c ≠ some 2 :=
  isValidMove_spec gSingleOne (getGridConfig .easy) 0 1 2 (by decide) (by decide)
    (by decide) (by decide) (by decide)

/-- **C5.**  `validateGrid` lists in `conflicts` exactly the filled
in-range cells whose value also appears at some other cell of the same
row, column, or sub-box (so two mutually conflicting cells are both
listed), and `isValid` is true exactly when `conflicts` is empty. -/
theorem validateGrid_spec (g : Grid) (cfg : GridConfig)
    (hw : Wf g cfg.size) (hcfg : WfConfig cfg) :
    (∀ r c, (r, c) ∈ (validateGrid g cfg).conflicts ↔
      r < cfg.size ∧ c < cfg.size ∧ ∃ num, getCell g r c = some num ∧
        ∃ a b, a < cfg.size ∧ b < cfg.size ∧ (a, b) ≠ (r, c) ∧
          SameUnit cfg r c a b ∧ getCell g a b = some num) ∧
    ((validateGrid g cfg).isValid = true ↔ (validateGrid g cfg).conflicts = []) := by
  constructor
  · intro r c
    rw [validateGrid_conflicts hw, List.mem_filter, mem_allCells]
    constructor
    · rintro ⟨⟨hr, hc⟩, hbad⟩
      refine ⟨hr, hc, ?_⟩
      cases hcell : getCell g r c with
      | none => rw [conflictAt_none hcell] at hbad; cases hbad
      | some num =>
        rw [conflictAt_some hcell] at hbad
        cases hv : isValidMove (setCell g r c none) r c num cfg with
        | true => rw [hv] at hbad; cases hbad
        | false =>
          rw [isValidMove_eq_false_iff hcfg hr hc] at hv
          obtain ⟨a, b, ha, hb, hne, hunit, hcellab⟩ := hv
          rw [getCell_setCell_ne _ hne] at hcellab
          exact ⟨num, rfl, a, b, ha, hb, hne, hunit, hcellab⟩
    · rintro ⟨hr, hc, num, hcell, a, b, ha, hb, hne, hunit, hcellab⟩
      refine ⟨⟨hr, hc⟩, ?_⟩
      rw [conflictAt_some hcell]
      have hv : isValidMove (setCell g r c none) r c num cfg = false := by
        rw [isValidMove_eq_false_iff hcfg hr hc]
        exact ⟨a, b, ha, hb, hne, hunit, by rw [getCell_setCell_ne _ hne]; exact hcellab⟩
      rw [hv]
      rfl
  · exact validateGrid_isValid_iff

theorem validateGrid_spec_witness :
    (validateGrid gTwoOnes (getGridConfig .easy)).isValid = true ↔
      (validateGrid gTwoOnes (getGridConfig .easy)).conflicts = [] :=
  (validateGrid_spec gTwoOnes (getGridConfig .easy) (by decide) (by decide)).2

/-- **C6.**  `getHint` ignores the `solution` argument entirely, returns
none when the puzzle has no empty cell, and otherwise returns the
position of an empty cell whose candidate count (under
`getPossibleNumbers`) is minimal among all empty cells. -/
theorem getHint_spec (grid sol : Grid) (cfg : GridConfig) :
    (∀ sol2, getHint grid sol cfg = getHint grid sol2 cfg) ∧
    ((∀ r < cfg.size, ∀ c < cfg.size, getCell grid r c ≠ none) →
      getHint grid sol cfg = none) ∧
    (∀ r, r < cfg.size → ∀ c, c < cfg.size → getCell grid r c = none →
      ∃ hr hc, getHint grid sol cfg = some (hr, hc) ∧ hr < cfg.size ∧ hc < cfg.size ∧
        getCell grid hr hc = none ∧
        ∀ a < cfg.size, ∀ b < cfg.size, getCell grid a b = none →
          (getPossibleNumbers grid hr hc cfg).length ≤
            (getPossibleNumbers grid a b cfg).length) :=
  ⟨fun sol2 => getHint_ignores_solution grid sol sol2 cfg,
   fun h => getHint_eq_none h,
   fun _ hr _ hc hcell => getHint_min hr hc hcell⟩

theorem getHint_spec_witness :
    getHint gOnes4 gOnes4 (getGridConfig .easy) = none :=
  (getHint_spec gOnes4 gOnes4 (getGridConfig .easy)).2.1 (by decide)

/-- **C7 counterexample.**  Cell (0, 0) of `gTwoOnes` holds 1, but so
does (0, 1) in the same row: after clearing (0, 0), `isValidMove`
rejects re-placing the 1, refuting the claim that a held value is always
a legal replacement of itself with no restriction on the grid. -/
theorem isValidMove_replacement_counterexample :
    getCell gTwoOnes 0 0 = some 1 ∧
    isValidMove (setCell gTwoOnes 0 0 none) 0 0 1 (getGridConfig .easy) = false := by decide

/-- **C7 (amended).**  If `(r, c)` holds `v` and no other cell in its
row, column, or sub-box holds `v` (the value was legally placed), then
after clearing the cell `isValidMove` accepts `v` there again. -/
theorem isValidMove_replacement (g : Grid) (cfg : GridConfig) (r c v : Nat)
    (hcfg : WfConfig cfg) (hr : r < cfg.size) (hc : c < cfg.size)
    (hcell : getCell g r c = some v)
    (hnodup : ∀ a < cfg.size, ∀ b < cfg.size, (a, b) ≠ (r, c) →
      SameUnit cfg r c a b → getCell g a b ≠ some v) :
    isValidMove (setCell g r c none) r c v cfg = true := by
  rw [isValidMove_eq_true_iff hcfg hr hc]
  intro a b ha hb hne hunit
  rw [getCell_setCell_ne _ hne]
  exact hnodup a ha b hb hne hunit

theorem isValidMove_replacement_witness :
    isValidMove (setCell (generatePuzzle .easy).2.1 0 0 none) 0 0 1
      (getGridConfig .easy) = true :=
  isValidMove_replacement (generatePuzzle .easy).2.1 (getGridConfig .easy) 0 0 1
    (by decide) (by decide) (by decide) (by decide) (by decide)

/-- **C8.**  `validateGrid` restores every temporarily cleared cell, so
the grid it returns (the in-place array state) equals the input grid. -/
theorem validateGrid_preserves_grid (g : Grid) (cfg : GridConfig) (hw : Wf g cfg.size) :
    (validateGridRun g cfg).1 = g :=
  validateGridRun_fst hw

theorem validateGrid_preserves_grid_witness :
    (validateGridRun gTwoOnes (getGridConfig .easy)).1 = gTwoOnes :=
  validateGrid_preserves_grid gTwoOnes (getGridConfig .easy) (by decide)

set_option maxRecDepth 100000 in
/-- **C9.**  For every difficulty, `generatePuzzle` returns square
puzzle and solution grids of the configured size, the solution is fully
filled with `validateGrid` reporting zero conflicts, and every non-empty
puzzle cell equals the corresponding solution cell. -/
theorem generatePuzzle_spec (d : Difficulty) :
    Wf (generatePuzzle d).1 (generatePuzzle d).2.2.size ∧
    Wf (generatePuzzle d).2.1 (generatePuzzle d).2.2.size ∧
    ((allCells (generatePuzzle d).2.2.size).all fun rc =>
      getCell (generatePuzzle d).2.1 rc.1 rc.2 != none) = true ∧
    (validateGrid (generatePuzzle d).2.1 (generatePuzzle d).2.2).conflicts = [] ∧
    ((allCells (generatePuzzle d).2.2.size).all fun rc =>
      getCell (generatePuzzle d).1 rc.1 rc.2 == none ||
      getCell (generatePuzzle d).1 rc.1 rc.2 ==
        getCell (generatePuzzle d).2.1 rc.1 rc.2) = true := by
  cases d <;> decide

theorem generatePuzzle_spec_witness :
    (validateGrid (generatePuzzle .easy).2.1 (generatePuzzle .easy).2.2).conflicts = [] :=
  (generatePuzzle_spec .easy).2.2.2.1

/-- **C10.**  `solve` writes only to cells that were empty: every cell
filled in the input grid holds its original value in the grid `solve`
returns, whether the result is true or false. -/
theorem solve_preserves_filled (g : Grid) (cfg : GridConfig) (hw : Wf g cfg.size)
    (b : Bool) (g2 : Grid) (h : solve g cfg = (b, g2)) (r c v : Nat)
    (hcell : getCell g r c = some v) : getCell g2 r c = some v :=
  solveRecursive_preserve _ g b g2 hw h r c v hcell

theorem solve_preserves_filled_witness :
    getCell (solve gTwoOnes (getGridConfig .easy)).2 0 0 = some 1 :=
  solve_preserves_filled gTwoOnes (getGridConfig .easy) (by decide)
    (solve gTwoOnes (getGridConfig .easy)).1 (solve gTwoOnes (getGridConfig .easy)).2
    rfl 0 0 1 (by decide)

end Sudokuz
